import Mathlib

/-!
Shallow embedding of the particle-morph core of the repository:
the vertex-shader blend/blast stages, the geometry generator, the
per-frame uniform smoothing (`useFrame`), and the hand-gesture
extractor (`predictWebcam`).  Real-valued shader and JS arithmetic is
embedded over `ℝ`; integer counts over `ℕ`.
-/

/-- A 3-component vector, mirroring GLSL `vec3` / landmark `{x,y,z}`. -/
@[ext] structure Vec3 where
  x : ℝ
  y : ℝ
  z : ℝ

/-- GLSL `fract(x)`. -/
noncomputable def glslFract (x : ℝ) : ℝ := Int.fract x

/-- GLSL `hash` from the vertex shader: `fract(sin(n) * 43758.5453123)`. -/
noncomputable def glslHash (n : ℝ) : ℝ := glslFract (Real.sin n * 43758.5453123)

/-- GLSL `mix(x, y, a) = x*(1-a) + y*a`. -/
def glslMix (x y a : ℝ) : ℝ := x * (1 - a) + y * a

/-- GLSL `clamp(x, 0.0, 1.0)`. -/
noncomputable def glslClamp01 (x : ℝ) : ℝ := min (max x 0) 1

/-- GLSL `smoothstep(e0, e1, x)`: clamp then cubic Hermite. -/
noncomputable def glslSmoothstep (e0 e1 x : ℝ) : ℝ :=
  glslClamp01 ((x - e0) / (e1 - e0)) * glslClamp01 ((x - e0) / (e1 - e0)) *
    (3 - 2 * glslClamp01 ((x - e0) / (e1 - e0)))

/-- Componentwise `mix` on `vec3`. -/
noncomputable def vmix (a b : Vec3) (t : ℝ) : Vec3 :=
  ⟨glslMix a.x b.x t, glslMix a.y b.y t, glslMix a.z b.z t⟩

/-- The blend stage of the vertex shader (src/App.tsx lines 547-567):
`easeMagic = smoothstep(0,1,uMagic)`, rotate the structure-A
(`butterflyPos`) by `easeMagic * 3.14` about z, `mix` with the
structure-B (`magicPos`) by `easeMagic`, then add the hash noise of
amplitude `sin(uMagic * 3.14159) * 2.5`. -/
noncomputable def blendOutput (butterflyPos magicPos : Vec3) (aProgress uMagic : ℝ) : Vec3 :=
  let easeMagic := glslSmoothstep 0 1 uMagic
  let rot := easeMagic * 3.14
  let c := Real.cos rot
  let s := Real.sin rot
  let rotatedButterfly : Vec3 :=
    ⟨butterflyPos.x * c - butterflyPos.y * s,
     butterflyPos.x * s + butterflyPos.y * c,
     butterflyPos.z⟩
  let noiseAmp := Real.sin (uMagic * 3.14159) * 2.5
  let noise : Vec3 :=
    ⟨(glslHash (aProgress * 10.0) - 0.5) * noiseAmp,
     (glslHash (aProgress * 20.0) - 0.5) * noiseAmp,
     (glslHash (aProgress * 30.0) - 0.5) * noiseAmp⟩
  let mixed := vmix rotatedButterfly magicPos easeMagic
  ⟨mixed.x + noise.x, mixed.y + noise.y, mixed.z + noise.z⟩

lemma glslSmoothstep_zero : glslSmoothstep 0 1 0 = 0 := by
  simp [glslSmoothstep, glslClamp01]

lemma glslSmoothstep_one : glslSmoothstep 0 1 1 = 1 := by
  norm_num [glslSmoothstep, glslClamp01]

lemma glslHash_zero : glslHash 0 = 0 := by
  simp [glslHash, glslFract]

lemma sin_314159_pos : 0 < Real.sin 3.14159 := by
  apply Real.sin_pos_of_pos_of_lt_pi
  · norm_num
  · calc (3.14159 : ℝ) < 3.141592 := by norm_num
      _ < Real.pi := Real.pi_gt_d6

lemma sin_314159_small : Real.sin 3.14159 < 0.000003 := by
  have h1 : Real.sin 3.14159 = Real.sin (Real.pi - 3.14159) := by
    rw [Real.sin_pi_sub]
  have h2 : (0 : ℝ) < Real.pi - 3.14159 := by
    have := Real.pi_gt_d6
    linarith
  have h3 : Real.sin (Real.pi - 3.14159) < Real.pi - 3.14159 := Real.sin_lt h2
  have h4 : Real.pi - 3.14159 < 0.000003 := by
    have := Real.pi_lt_d6
    linarith
  linarith [h1 ▸ h3]

lemma glslHash_sub_half_abs (v : ℝ) : |glslHash v - 0.5| ≤ 0.5 := by
  have h1 : 0 ≤ glslHash v := Int.fract_nonneg _
  have h2 : glslHash v < 1 := Int.fract_lt_one _
  rw [abs_le]
  constructor <;> nlinarith

/-- Claim C1 counterexample: at eased transition 1 (uMagic = 1) the
blend output does NOT equal the structure-B position exactly: for the
particle with progress 0 and both target positions at the origin, the
output x-coordinate is `-0.5 * sin(3.14159) * 2.5 < 0`, because the
noise amplitude `sin(3.14159 * magic)` does not vanish at magic = 1
(the shader literal 3.14159 is not π). -/
theorem c1_blend_exact_endpoint_cex :
    blendOutput ⟨0, 0, 0⟩ ⟨0, 0, 0⟩ 0 1 ≠ ⟨0, 0, 0⟩ := by
  intro h
  have hx : (blendOutput ⟨0, 0, 0⟩ ⟨0, 0, 0⟩ 0 1).x = 0 := by rw [h]
  have hs := sin_314159_pos
  have : (blendOutput ⟨0, 0, 0⟩ ⟨0, 0, 0⟩ 0 1).x
      = (glslHash 0 - 0.5) * (Real.sin 3.14159 * 2.5) := by
    simp only [blendOutput, vmix, glslMix, glslSmoothstep_one]
    norm_num
  rw [glslHash_zero] at this
  nlinarith [hx, this]

/-- Claim C1 amended: at eased transition 0 (uMagic = 0) the blend
output equals the unrotated structure-A position exactly (rotation
angle 0 and noise amplitude sin 0 = 0); at eased transition 1
(uMagic = 1) the output equals the structure-B position up to a
residual noise of at most `1.25 * sin(3.14159) < 0.000004` per
coordinate, which is small but (for generic particles) nonzero since
the shader uses the literal 3.14159 rather than π. -/
theorem c1_blend_endpoints_amended (b m : Vec3) (p : ℝ) :
    blendOutput b m p 0 = b ∧
    |(blendOutput b m p 1).x - m.x| ≤ 1.25 * Real.sin 3.14159 ∧
    |(blendOutput b m p 1).y - m.y| ≤ 1.25 * Real.sin 3.14159 ∧
    |(blendOutput b m p 1).z - m.z| ≤ 1.25 * Real.sin 3.14159 ∧
    1.25 * Real.sin 3.14159 < 0.000004 := by
  have hs := sin_314159_pos
  have hsmall := sin_314159_small
  have hb : ∀ v : ℝ, |(glslHash v - 0.5) * (Real.sin 3.14159 * 2.5)|
      ≤ 1.25 * Real.sin 3.14159 := by
    intro v
    rw [abs_mul]
    have h1 := glslHash_sub_half_abs v
    have h2 : |Real.sin 3.14159 * 2.5| = Real.sin 3.14159 * 2.5 := by
      rw [abs_of_pos]; positivity
    rw [h2]
    nlinarith
  have ex : ∀ k : ℝ, (blendOutput b m p 1).x - m.x
      = (glslHash (p * 10.0) - 0.5) * (Real.sin (1 * 3.14159) * 2.5) := by
    intro _
    simp only [blendOutput, vmix, glslMix, glslSmoothstep_one]
    ring
  have ey : (blendOutput b m p 1).y - m.y
      = (glslHash (p * 20.0) - 0.5) * (Real.sin (1 * 3.14159) * 2.5) := by
    simp only [blendOutput, vmix, glslMix, glslSmoothstep_one]
    ring
  have ez : (blendOutput b m p 1).z - m.z
      = (glslHash (p * 30.0) - 0.5) * (Real.sin (1 * 3.14159) * 2.5) := by
    simp only [blendOutput, vmix, glslMix, glslSmoothstep_one]
    ring
  have hone : (1 : ℝ) * 3.14159 = 3.14159 := by norm_num
  refine ⟨?_, ?_, ?_, ?_, by nlinarith⟩
  · ext <;>
      simp [blendOutput, vmix, glslMix, glslSmoothstep_zero, Real.cos_zero, Real.sin_zero]
  · rw [ex 0, hone]; exact hb _
  · rw [ey, hone]; exact hb _
  · rw [ez, hone]; exact hb _

/-! ## Geometry generator (src/App.tsx lines 717-813)

The generator pushes, in order: icosahedron-edge points (30 edges,
`Math.floor(Math.floor(N*0.2)/30)` points each), three rings
(`Math.floor(Math.floor(N*0.3)/3)` points each), a spherical spiral
(`Math.floor(N*0.3)` points), and floating golden-angle shell points
(all remaining).  `progress` of the particle generated at index `idx`
is `idx / N`.  The configured count is `numPoints = 40000`. -/

/-- The four sub-structures of structure A. -/
inductive SubStructure where
  | ico
  | rings
  | spiral
  | floating
deriving DecidableEq

/-- The configured particle count (`numPoints = 40000`). -/
def numPoints : ℕ := 40000

/-- `pointsPerEdge = Math.floor(Math.floor(N*0.2) / icoEdges.length)` with 30 edges. -/
def pointsPerEdge (N : ℕ) : ℕ := N / 5 / 30

/-- Total icosahedron points generated: 30 edges times `pointsPerEdge`. -/
def icoGenCount (N : ℕ) : ℕ := 30 * pointsPerEdge N

/-- `pointsPerRing = Math.floor(Math.floor(N*0.3) / 3)`. -/
def pointsPerRing (N : ℕ) : ℕ := N * 3 / 10 / 3

/-- Total ring points generated: 3 rings times `pointsPerRing`. -/
def ringGenCount (N : ℕ) : ℕ := 3 * pointsPerRing N

/-- Spiral points generated: `Math.floor(N*0.3)`. -/
def spiralGenCount (N : ℕ) : ℕ := N * 3 / 10

/-- Floating points generated: all indices left over (`numPoints - idx`). -/
def floatGenCount (N : ℕ) : ℕ := N - (icoGenCount N + ringGenCount N + spiralGenCount N)

/-- The sub-structure in which the particle at generation index `idx` is
generated (the generator pushes the four groups sequentially). -/
def genStructure (N idx : ℕ) : SubStructure :=
  if idx < icoGenCount N then SubStructure.ico
  else if idx < icoGenCount N + ringGenCount N then SubStructure.rings
  else if idx < icoGenCount N + ringGenCount N + spiralGenCount N then SubStructure.spiral
  else SubStructure.floating

/-- `progress` value pushed for generation index `idx`: `idx / N`. -/
noncomputable def progressOf (N idx : ℕ) : ℝ := (idx : ℝ) / (N : ℝ)

/-- The structure selection of the vertex shader (src/App.tsx lines
101-106): icosahedron for `aProgress < 0.2`, rings below `0.5`,
spirals below `0.8`, floating otherwise. -/
noncomputable def shaderStructure (aProgress : ℝ) : SubStructure :=
  if aProgress < 0.2 then SubStructure.ico
  else if aProgress < 0.5 then SubStructure.rings
  else if aProgress < 0.8 then SubStructure.spiral
  else SubStructure.floating

lemma progress_lt_iff (idx k : ℕ) :
    progressOf 40000 idx < (k : ℝ) / 40000 ↔ idx < k := by
  unfold progressOf
  push_cast
  rw [div_lt_div_iff_of_pos_right (by norm_num : (0:ℝ) < 40000)]
  exact_mod_cast Iff.rfl

lemma shaderStructure_at (idx : ℕ) :
    shaderStructure (progressOf 40000 idx) =
      if idx < 8000 then SubStructure.ico
      else if idx < 20000 then SubStructure.rings
      else if idx < 32000 then SubStructure.spiral
      else SubStructure.floating := by
  have h2 : progressOf 40000 idx < 0.2 ↔ idx < 8000 := by
    have h := progress_lt_iff idx 8000
    norm_num at h ⊢
    exact h
  have h5 : progressOf 40000 idx < 0.5 ↔ idx < 20000 := by
    have h := progress_lt_iff idx 20000
    norm_num at h ⊢
    exact h
  have h8 : progressOf 40000 idx < 0.8 ↔ idx < 32000 := by
    have h := progress_lt_iff idx 32000
    norm_num at h ⊢
    exact h
  unfold shaderStructure
  by_cases c2 : idx < 8000
  · rw [if_pos (h2.mpr c2), if_pos c2]
  · rw [if_neg (fun h => c2 (h2.mp h)), if_neg c2]
    by_cases c5 : idx < 20000
    · rw [if_pos (h5.mpr c5), if_pos c5]
    · rw [if_neg (fun h => c5 (h5.mp h)), if_neg c5]
      by_cases c8 : idx < 32000
      · rw [if_pos (h8.mpr c8), if_pos c8]
      · rw [if_neg (fun h => c8 (h8.mp h)), if_neg c8]

lemma icoGenCount_40000 : icoGenCount 40000 = 7980 := by decide
lemma ringGenCount_40000 : ringGenCount 40000 = 12000 := by decide
lemma spiralGenCount_40000 : spiralGenCount 40000 = 12000 := by decide

/-- Claim C2 counterexample: the particle at generation index 7980 is
generated in the rings sub-structure (the icosahedron only receives
`30 * floor(8000/30) = 7980` particles), but its progress
`7980/40000 = 0.1995 < 0.2`, so the shader classifies it as an
icosahedron particle: generated-in and threshold-selected
sub-structures differ. -/
theorem c2_substructure_threshold_cex :
    genStructure 40000 7980 = SubStructure.rings ∧
    shaderStructure (progressOf 40000 7980) = SubStructure.ico := by
  constructor
  · decide
  · rw [shaderStructure_at]
    norm_num

/-- Claim C2 amended: the shader's progress-threshold classification
agrees with the generation-order sub-structure for every particle
except the 60 boundary particles whose index falls in
[7980,8000) ∪ [19980,20000) ∪ [31980,32000) — the flooring in the
icosahedron allocation leaves it 20 particles short of 20% of 40000,
so the first 20 particles of each later group fall below the previous
threshold; on those indices the shader assigns the preceding
sub-structure. -/
theorem c2_substructure_threshold_amended (idx : ℕ) (h : idx < 40000) :
    shaderStructure (progressOf 40000 idx) = genStructure 40000 idx ↔
      ¬ ((7980 ≤ idx ∧ idx < 8000) ∨ (19980 ≤ idx ∧ idx < 20000) ∨
         (31980 ≤ idx ∧ idx < 32000)) := by
  rw [shaderStructure_at]
  unfold genStructure
  rw [icoGenCount_40000, ringGenCount_40000, spiralGenCount_40000]
  norm_num
  split_ifs <;> simp_all <;> omega

/-- Witness for C2 amended at index 0 (agreement holds there). -/
theorem c2_substructure_threshold_amended_witness :
    shaderStructure (progressOf 40000 0) = genStructure 40000 0 := by
  exact (c2_substructure_threshold_amended 0 (by norm_num)).mpr (by norm_num)

/-- Claim C3 counterexample: at the configured count N = 40000 the
icosahedron sub-structure receives 7980 particles while its 20%
target is 8000 — off by 20, not within rounding (±1) of the target
fraction. -/
theorem c3_counts_within_rounding_cex :
    icoGenCount 40000 = 7980 ∧ (0.2 : ℝ) * 40000 = 8000 ∧
    ¬ |((icoGenCount 40000 : ℝ)) - 0.2 * 40000| ≤ 1 := by
  refine ⟨by decide, by norm_num, ?_⟩
  rw [icoGenCount_40000]
  norm_num

/-- Claim C3 amended: for any N the four generated counts sum to
exactly N; the icosahedron count is `30*⌊⌊0.2N⌋/30⌋`, up to 29 below
the 20% floor (at N = 40000 it is 20 below); the rings count is
`3*⌊⌊0.3N⌋/3⌋`, up to 2 below the 30% floor; the spiral count is
exactly `⌊0.3N⌋`; the floating count absorbs the remainder.  Every
generated progress value `idx/N` (idx < N) lies in [0,1) and is
strictly increasing (hence monotonically non-decreasing) in
generation order. -/
theorem c3_counts_progress_amended (N : ℕ) :
    icoGenCount N + ringGenCount N + spiralGenCount N + floatGenCount N = N ∧
    N / 5 - 29 ≤ icoGenCount N ∧ icoGenCount N ≤ N / 5 ∧
    N * 3 / 10 - 2 ≤ ringGenCount N ∧ ringGenCount N ≤ N * 3 / 10 ∧
    spiralGenCount N = N * 3 / 10 ∧
    (∀ idx : ℕ, idx < N → 0 ≤ progressOf N idx ∧ progressOf N idx < 1) ∧
    (∀ i j : ℕ, i < j → j < N → progressOf N i < progressOf N j) := by
  have hcounts : icoGenCount N + ringGenCount N + spiralGenCount N ≤ N ∧
      N / 5 - 29 ≤ icoGenCount N ∧ icoGenCount N ≤ N / 5 ∧
      N * 3 / 10 - 2 ≤ ringGenCount N ∧ ringGenCount N ≤ N * 3 / 10 := by
    unfold icoGenCount ringGenCount pointsPerEdge pointsPerRing spiralGenCount
    omega
  refine ⟨?_, hcounts.2.1, hcounts.2.2.1, hcounts.2.2.2.1, hcounts.2.2.2.2, rfl, ?_, ?_⟩
  · have := hcounts.1
    unfold floatGenCount
    omega
  · intro idx hidx
    have hN : (0 : ℝ) < (N : ℝ) := by
      have h0 : 0 < N := by omega
      exact_mod_cast h0
    unfold progressOf
    constructor
    · exact div_nonneg (Nat.cast_nonneg _) (le_of_lt hN)
    · rw [div_lt_one hN]
      exact_mod_cast hidx
  · intro i j hij hj
    have hN : (0 : ℝ) < (N : ℝ) := by
      have h0 : 0 < N := by omega
      exact_mod_cast h0
    unfold progressOf
    rw [div_lt_div_iff_of_pos_right hN]
    exact_mod_cast hij

/-- Witness for C3 amended at N = 40000: the counts sum to 40000 and
the first two progress values are ordered. -/
theorem c3_counts_progress_amended_witness :
    icoGenCount 40000 + ringGenCount 40000 + spiralGenCount 40000 + floatGenCount 40000 = 40000 ∧
    progressOf 40000 0 < progressOf 40000 1 :=
  ⟨(c3_counts_progress_amended 40000).1,
   (c3_counts_progress_amended 40000).2.2.2.2.2.2.2 0 1 (by norm_num) (by norm_num)⟩

/-! ## Per-frame uniform smoothing (src/App.tsx lines 815-873) -/

/-- `THREE.MathUtils.lerp(x, y, t) = (1 - t) * x + t * y`. -/
def threeLerp (x y t : ℝ) : ℝ := (1 - t) * x + t * y

/-- One frame of the blast-uniform update (src/App.tsx lines 863-871):
lerp toward 1.0 at rate 0.08 while the blast target is active
(`blastTarget > 0.5`), lerp toward 0.0 at rate 0.06 otherwise. -/
noncomputable def blastUpdate (currentBlast blastTarget : ℝ) : ℝ :=
  if blastTarget > 0.5 then threeLerp currentBlast 1 0.08
  else threeLerp currentBlast 0 0.06

/-- Claim C4 evaluation at the failing input: one onset step from 0
toward 1 covers 0.08 of the distance, but one decay step from 1
toward 0 covers only 0.06 — the decay (recovery) rate 0.06 is
strictly SMALLER than the onset rate 0.08, contradicting the claim
(and the code's own comments) that recovery is snappier than onset.
The exponential-smoothing shape itself is as claimed: a triggered
step moves strictly toward 1, an untriggered step strictly toward 0. -/
theorem c4_blast_rates_eval :
    blastUpdate 0 1 = 0.08 ∧
    blastUpdate 1 0 = 0.94 ∧
    1 - blastUpdate 1 0 < blastUpdate 0 1 - 0 ∧
    blastUpdate 0.5 1 = 0.5 + 0.08 * (1 - 0.5) ∧
    blastUpdate 0.5 0 = 0.5 - 0.06 * 0.5 := by
  have hup : blastUpdate 0 1 = 0.08 := by
    rw [blastUpdate, if_pos (by norm_num : (1:ℝ) > 0.5)]
    norm_num [threeLerp]
  have hdown : blastUpdate 1 0 = 0.94 := by
    rw [blastUpdate, if_neg (by norm_num : ¬ (0:ℝ) > 0.5)]
    norm_num [threeLerp]
  have hmidUp : blastUpdate 0.5 1 = 0.54 := by
    rw [blastUpdate, if_pos (by norm_num : (1:ℝ) > 0.5)]
    norm_num [threeLerp]
  have hmidDown : blastUpdate 0.5 0 = 0.47 := by
    rw [blastUpdate, if_neg (by norm_num : ¬ (0:ℝ) > 0.5)]
    norm_num [threeLerp]
  refine ⟨hup, hdown, ?_, ?_, ?_⟩
  · rw [hup, hdown]; norm_num
  · rw [hmidUp]; norm_num
  · rw [hmidDown]; norm_num

/-! ## Structure-A size factor (src/App.tsx lines 143-150) -/

/-- The overall structure-A size factor of the vertex shader:
`shrinkFactor = smoothstep(0.2, 0.7, uPinch)`,
`orbScale = mix(0.3, 1.0, shrinkFactor)`. -/
noncomputable def orbScale (uPinch : ℝ) : ℝ :=
  glslMix 0.3 1.0 (glslSmoothstep 0.2 0.7 uPinch)

/-- Claim C5 counterexample: the size factor at a fully-open pinch
signal (uPinch = 1) is 1 (full size) while at a fully-closed pinch
signal (uPinch = 0) it is the floor 0.3 — the structure shrinks as
the pinch signal approaches fully-CLOSED, not fully-open as the claim
states. -/
theorem c5_orbscale_cex :
    orbScale 1 = 1 ∧ orbScale 0 = 0.3 ∧ ¬ orbScale 1 < orbScale 0 := by
  have h1 : orbScale 1 = 1 := by
    norm_num [orbScale, glslMix, glslSmoothstep, glslClamp01]
  have h0 : orbScale 0 = 0.3 := by
    norm_num [orbScale, glslMix, glslSmoothstep, glslClamp01]
  refine ⟨h1, h0, ?_⟩
  rw [h1, h0]
  norm_num

lemma glslClamp01_mono {a b : ℝ} (h : a ≤ b) : glslClamp01 a ≤ glslClamp01 b := by
  unfold glslClamp01
  exact min_le_min (max_le_max h (le_refl 0)) (le_refl 1)

lemma glslClamp01_mem (a : ℝ) : 0 ≤ glslClamp01 a ∧ glslClamp01 a ≤ 1 := by
  unfold glslClamp01
  constructor
  · exact le_min (le_max_right a 0) (by norm_num)
  · exact min_le_right _ 1

lemma hermite_mono {s t : ℝ} (h0 : 0 ≤ s) (h : s ≤ t) (h1 : t ≤ 1) :
    s * s * (3 - 2 * s) ≤ t * t * (3 - 2 * t) := by
  nlinarith [mul_nonneg (sub_nonneg.mpr h)
               (mul_nonneg (by linarith : (0:ℝ) ≤ t) (by linarith : (0:ℝ) ≤ 1 - t)),
             mul_nonneg (sub_nonneg.mpr h)
               (mul_nonneg h0 (by linarith : (0:ℝ) ≤ 1 - s)),
             mul_nonneg (sub_nonneg.mpr h)
               (mul_nonneg (by linarith : (0:ℝ) ≤ t) (by linarith : (0:ℝ) ≤ 1 - s)),
             mul_nonneg (sub_nonneg.mpr h)
               (mul_nonneg h0 (by linarith : (0:ℝ) ≤ 1 - t))]

lemma glslSmoothstep_mono {e0 e1 x y : ℝ} (he : 0 < e1 - e0) (h : x ≤ y) :
    glslSmoothstep e0 e1 x ≤ glslSmoothstep e0 e1 y := by
  unfold glslSmoothstep
  have harg : (x - e0) / (e1 - e0) ≤ (y - e0) / (e1 - e0) :=
    (div_le_div_iff_of_pos_right he).mpr (by linarith)
  have hst := glslClamp01_mono harg
  have hs := glslClamp01_mem ((x - e0) / (e1 - e0))
  have ht := glslClamp01_mem ((y - e0) / (e1 - e0))
  exact hermite_mono hs.1 hst ht.2

lemma glslSmoothstep_mem (e0 e1 x : ℝ) :
    0 ≤ glslSmoothstep e0 e1 x ∧ glslSmoothstep e0 e1 x ≤ 1 := by
  unfold glslSmoothstep
  have h := glslClamp01_mem ((x - e0) / (e1 - e0))
  constructor
  · nlinarith [h.1, h.2]
  · nlinarith [h.1, h.2, sq_nonneg (1 - glslClamp01 ((x - e0) / (e1 - e0)))]

/-- Claim C5 amended: the overall structure-A size factor is
`mix(0.3, 1.0, smoothstep(0.2, 0.7, uPinch))`: it is monotonically
non-decreasing in the smoothed pinch signal, shrinking to the floor
0.3 (30% of full size) as the pinch signal approaches fully-CLOSED
(pinch ≤ 0.2) and reaching full size 1 when the signal is open
(pinch ≥ 0.7); it always stays within [0.3, 1]. -/
theorem c5_orbscale_amended (p q : ℝ) :
    0.3 ≤ orbScale p ∧ orbScale p ≤ 1 ∧
    (p ≤ 0.2 → orbScale p = 0.3) ∧
    (0.7 ≤ p → orbScale p = 1) ∧
    (p ≤ q → orbScale p ≤ orbScale q) := by
  have hmem := glslSmoothstep_mem 0.2 0.7 p
  refine ⟨?_, ?_, ?_, ?_, ?_⟩
  · unfold orbScale glslMix
    nlinarith [hmem.1, hmem.2]
  · unfold orbScale glslMix
    nlinarith [hmem.1, hmem.2]
  · intro hp
    have hz : glslSmoothstep 0.2 0.7 p = 0 := by
      unfold glslSmoothstep glslClamp01
      have harg : (p - 0.2) / (0.7 - 0.2) ≤ 0 := by
        apply div_nonpos_of_nonpos_of_nonneg <;> linarith
      rw [max_eq_right harg, min_eq_left (by norm_num : (0:ℝ) ≤ 1)]
      ring
    unfold orbScale
    rw [hz]
    norm_num [glslMix]
  · intro hp
    have ho : glslSmoothstep 0.2 0.7 p = 1 := by
      unfold glslSmoothstep glslClamp01
      have harg : (1 : ℝ) ≤ (p - 0.2) / (0.7 - 0.2) := by
        rw [le_div_iff₀ (by norm_num : (0:ℝ) < 0.7 - 0.2)]
        linarith
      have hmax : max ((p - 0.2) / (0.7 - 0.2)) 0 = (p - 0.2) / (0.7 - 0.2) :=
        max_eq_left (by linarith)
      rw [hmax, min_eq_right harg]
      ring
    unfold orbScale
    rw [ho]
    norm_num [glslMix]
  · intro hpq
    have hm := glslSmoothstep_mono (by norm_num : (0:ℝ) < 0.7 - 0.2) hpq
    unfold orbScale glslMix
    nlinarith [hm]

/-- Witness for C5 amended at pinch 0 and 1: the floor value, and
monotone growth from closed to open. -/
theorem c5_orbscale_amended_witness :
    orbScale 0 = 0.3 ∧ orbScale 0 ≤ orbScale 1 :=
  ⟨(c5_orbscale_amended 0 1).2.2.1 (by norm_num),
   (c5_orbscale_amended 0 1).2.2.2.2 (by norm_num)⟩

/-! ## Gesture extractor (src/components/HandController.tsx, `predictWebcam`)

A detected hand is 21 landmark points with `x`, `y`, `z` coordinates;
landmark 0 is the wrist, 4 the thumb tip, 8 the index tip, and
`[8,12,16,20]` / `[5,9,13,17]` the non-thumb fingertip / MCP-base
landmarks visited by the curled-finger loop. -/

/-- A frame of 21 hand landmarks. -/
def Hand : Type := Fin 21 → Vec3

/-- 2D (x,y) distance, as used by the tip/base-to-wrist comparisons. -/
noncomputable def dist2 (a b : Vec3) : ℝ :=
  Real.sqrt ((a.x - b.x) ^ 2 + (a.y - b.y) ^ 2)

/-- 3D distance, as used by the thumb-tip/index-tip pinch distance. -/
noncomputable def dist3 (a b : Vec3) : ℝ :=
  Real.sqrt ((a.x - b.x) ^ 2 + (a.y - b.y) ^ 2 + (a.z - b.z) ^ 2)

/-- Pinch strength from the thumb-tip and index-tip landmarks:
`Math.min(Math.max((dist - 0.02) / 0.15, 0), 1)`. -/
noncomputable def pinchStrengthOf (thumbTip indexTip : Vec3) : ℝ :=
  min (max ((dist3 thumbTip indexTip - 0.02) / 0.15) 0) 1

/-- Pinch strength of a hand frame (landmarks 4 and 8). -/
noncomputable def pinchStrength (lm : Hand) : ℝ :=
  pinchStrengthOf (lm 4) (lm 8)

/-- Fingertip landmark index for non-thumb finger `i` (loop `i = 1..4`
over `fingerTipIndices = [4, 8, 12, 16, 20]`). -/
def tipIdx (i : Fin 4) : Fin 21 :=
  match i with
  | 0 => 8
  | 1 => 12
  | 2 => 16
  | 3 => 20

/-- MCP (base-knuckle) landmark index for non-thumb finger `i`
(loop `i = 1..4` over `fingerMCPIndices = [2, 5, 9, 13, 17]`). -/
def mcpIdx (i : Fin 4) : Fin 21 :=
  match i with
  | 0 => 5
  | 1 => 9
  | 2 => 13
  | 3 => 17

/-- Non-thumb finger `i` is classified curled:
`tipDistToWrist < mcpDistToWrist * 0.9`. -/
noncomputable def fingerCurled (lm : Hand) (i : Fin 4) : Prop :=
  dist2 (lm (tipIdx i)) (lm 0) < dist2 (lm (mcpIdx i)) (lm 0) * 0.9

open Classical in
/-- The loop counter `fingersCurled`: how many of the four non-thumb
fingers are classified curled. -/
noncomputable def fingersCurled (lm : Hand) : ℕ :=
  (Finset.univ.filter (fun i : Fin 4 => fingerCurled lm i)).card

open Classical in
/-- `isFist = fingersCurled >= 3 && pinchStrength < 0.3`, and
`blastValue = isFist ? 1.0 : 0.0`. -/
noncomputable def blastValue (lm : Hand) : ℝ :=
  if 3 ≤ fingersCurled lm ∧ pinchStrength lm < 0.3 then 1.0 else 0.0

/-- Claim C6: the blast output is 1 exactly when at least 3 of the 4
non-thumb fingers are curled (some 3-element set of them satisfies
the tip-closer-than-0.9×-base test) and the pinch strength is below
0.3; with all 4 curled and pinch below 0.3 it is 1; with fewer than 3
curled it is 0 regardless of pinch strength. -/
theorem c6_fist_blast_iff (lm : Hand) :
    (blastValue lm = 1 ↔
      (∃ S : Finset (Fin 4), 3 ≤ S.card ∧ ∀ i ∈ S, fingerCurled lm i) ∧
        pinchStrength lm < 0.3) ∧
    ((∀ i : Fin 4, fingerCurled lm i) → pinchStrength lm < 0.3 → blastValue lm = 1) ∧
    (fingersCurled lm < 3 → blastValue lm = 0) := by
  classical
  have hcount : ∀ S : Finset (Fin 4), (∀ i ∈ S, fingerCurled lm i) →
      S.card ≤ fingersCurled lm := by
    intro S hS
    apply Finset.card_le_card
    intro i hi
    exact Finset.mem_filter.mpr ⟨Finset.mem_univ i, hS i hi⟩
  have hiff : blastValue lm = 1 ↔ (3 ≤ fingersCurled lm ∧ pinchStrength lm < 0.3) := by
    unfold blastValue
    split_ifs with h
    · constructor
      · intro _
        exact h
      · intro _
        norm_num
    · constructor
      · intro h01
        exfalso
        norm_num at h01
      · intro hr
        exact absurd hr h
  have hSiff : (∃ S : Finset (Fin 4), 3 ≤ S.card ∧ ∀ i ∈ S, fingerCurled lm i) ↔
      3 ≤ fingersCurled lm := by
    constructor
    · rintro ⟨S, h3, hS⟩
      exact le_trans h3 (hcount S hS)
    · intro h3
      exact ⟨Finset.univ.filter (fun i => fingerCurled lm i), h3,
        fun i hi => (Finset.mem_filter.mp hi).2⟩
  refine ⟨hiff.trans (and_congr_left fun _ => hSiff.symm), ?_, ?_⟩
  · intro hall hp
    apply hiff.mpr
    refine ⟨?_, hp⟩
    have h4 : (Finset.univ : Finset (Fin 4)).card ≤ fingersCurled lm :=
      hcount Finset.univ (fun i _ => hall i)
    have h4c : 4 ≤ fingersCurled lm := by simpa using h4
    omega
  · intro hlt
    unfold blastValue
    rw [if_neg (fun hc => absurd hc.1 (by omega))]
    norm_num

/-- A synthetic fist frame: all four MCP bases at distance 1 from the
wrist, every other landmark (wrist, thumb tip, all fingertips) at the
origin. -/
noncomputable def handFist : Hand := fun i =>
  match i.val with
  | 5 => ⟨1, 0, 0⟩
  | 9 => ⟨1, 0, 0⟩
  | 13 => ⟨1, 0, 0⟩
  | 17 => ⟨1, 0, 0⟩
  | _ => ⟨0, 0, 0⟩

/-- Witness for C6: on the synthetic fist frame every non-thumb
fingertip is at distance 0 from the wrist (below 0.9 × base distance
1) and the thumb and index tips touch, so blast is 1. -/
theorem c6_fist_blast_iff_witness : blastValue handFist = 1 := by
  apply (c6_fist_blast_iff handFist).2.1
  · intro i
    fin_cases i <;>
      · show dist2 (⟨0, 0, 0⟩ : Vec3) ⟨0, 0, 0⟩ < dist2 (⟨1, 0, 0⟩ : Vec3) ⟨0, 0, 0⟩ * 0.9
        norm_num [dist2, Real.sqrt_zero, Real.sqrt_one]
  · show pinchStrengthOf (⟨0, 0, 0⟩ : Vec3) ⟨0, 0, 0⟩ < 0.3
    rw [pinchStrengthOf]
    norm_num [dist3, Real.sqrt_zero, min_def, max_def]

/-- Claim C7: the pinch strength is the 3D thumb-to-index distance
remapped linearly with 0.02 ↦ 0 and 0.17 ↦ 1, clamped to [0,1] for
every input distance, including distances below 0.02 (yielding 0) and
above 0.17 (yielding 1). -/
theorem c7_pinch_clamped (thumbTip indexTip : Vec3) :
    0 ≤ pinchStrengthOf thumbTip indexTip ∧
    pinchStrengthOf thumbTip indexTip ≤ 1 ∧
    (dist3 thumbTip indexTip ≤ 0.02 → pinchStrengthOf thumbTip indexTip = 0) ∧
    (0.17 ≤ dist3 thumbTip indexTip → pinchStrengthOf thumbTip indexTip = 1) ∧
    (0.02 ≤ dist3 thumbTip indexTip → dist3 thumbTip indexTip ≤ 0.17 →
      pinchStrengthOf thumbTip indexTip = (dist3 thumbTip indexTip - 0.02) / 0.15) := by
  set d := dist3 thumbTip indexTip with hd
  unfold pinchStrengthOf
  rw [← hd]
  refine ⟨?_, ?_, ?_, ?_, ?_⟩
  · exact le_min (le_max_right _ 0) (by norm_num)
  · exact min_le_right _ 1
  · intro h
    have harg : (d - 0.02) / 0.15 ≤ 0 := by
      apply div_nonpos_of_nonpos_of_nonneg <;> linarith
    rw [max_eq_right harg, min_eq_left (by norm_num : (0:ℝ) ≤ 1)]
  · intro h
    have harg : (1 : ℝ) ≤ (d - 0.02) / 0.15 := by
      rw [le_div_iff₀ (by norm_num : (0:ℝ) < 0.15)]
      linarith
    rw [max_eq_left (by linarith), min_eq_right harg]
  · intro h1 h2
    have hlow : (0 : ℝ) ≤ (d - 0.02) / 0.15 :=
      div_nonneg (by linarith) (by norm_num)
    have hhigh : (d - 0.02) / 0.15 ≤ 1 := by
      rw [div_le_one (by norm_num : (0:ℝ) < 0.15)]
      linarith
    rw [max_eq_left hlow, min_eq_left hhigh]

/-- Witness for C7 with both tips at the origin: distance 0 is below
the touching floor, so the strength clamps to 0. -/
theorem c7_pinch_clamped_witness :
    pinchStrengthOf ⟨0, 0, 0⟩ ⟨0, 0, 0⟩ = 0 := by
  apply (c7_pinch_clamped ⟨0, 0, 0⟩ ⟨0, 0, 0⟩).2.2.1
  norm_num [dist3]

/-! ## HandState update on a no-hand sample
(src/components/HandController.tsx lines 179-181) -/

/-- A fingertip entry of the shared `HandState` (src/types.ts). -/
structure FingerTip where
  x : ℝ
  y : ℝ
  dirX : ℝ
  dirY : ℝ

/-- The shared `HandState` record (src/types.ts). -/
structure HandState where
  detected : Bool
  x : ℝ
  y : ℝ
  palmX : ℝ
  palmY : ℝ
  pinch : ℝ
  rotation : ℝ
  fingerTips : List FingerTip
  blast : ℝ

/-- The update performed when a sample has no detected hand:
`handStateRef.current = { ...handStateRef.current, detected: false }` —
every field is copied from the previous state, then `detected` is
overwritten with false. -/
def noHandUpdate (s : HandState) : HandState :=
  { detected := false
    x := s.x
    y := s.y
    palmX := s.palmX
    palmY := s.palmY
    pinch := s.pinch
    rotation := s.rotation
    fingerTips := s.fingerTips
    blast := s.blast }

/-- Claim C8: on a no-hand sample only the `detected` flag is
overwritten (to false); the pinch point, palm center, pinch strength,
rotation, fingertips and blast all retain exactly their previous
values. -/
theorem c8_no_hand_preserves (s : HandState) :
    (noHandUpdate s).detected = false ∧
    (noHandUpdate s).x = s.x ∧
    (noHandUpdate s).y = s.y ∧
    (noHandUpdate s).palmX = s.palmX ∧
    (noHandUpdate s).palmY = s.palmY ∧
    (noHandUpdate s).pinch = s.pinch ∧
    (noHandUpdate s).rotation = s.rotation ∧
    (noHandUpdate s).fingerTips = s.fingerTips ∧
    (noHandUpdate s).blast = s.blast :=
  ⟨rfl, rfl, rfl, rfl, rfl, rfl, rfl, rfl, rfl⟩

/-! ## Blast overlay of the vertex shader (src/App.tsx lines 569-613) -/

/-- The blast stage: given the blended position `finalPos`, the
particle progress and the `uBlast` uniform, return the displaced
position and the `vBlastAlpha` multiplier.  The whole block is
guarded by `uBlast > 0.01`; `vBlastAlpha` defaults to 1. -/
noncomputable def blastStage (finalPos : Vec3) (aProgress uBlast : ℝ) : Vec3 × ℝ :=
  if uBlast > 0.01 then
    let blastProgress := uBlast
    let easeBlast := 1 - (1 - blastProgress) ^ 3
    let randAngle := glslHash (aProgress * 777.0) * 6.28318
    let randSpeed := 0.8 + glslHash (aProgress * 333.0) * 2.5
    let randUpward := glslHash (aProgress * 555.0) * 1.2
    let scatterDir : Vec3 :=
      ⟨Real.cos randAngle * randSpeed * 1.5,
       Real.sin randAngle * randSpeed * 0.6 + randUpward,
       (glslHash (aProgress * 999.0) - 0.5) * randSpeed * 0.8⟩
    let blastTime := blastProgress * 2.0
    let decel := 1 - blastProgress * 0.5
    let scatterOffset : Vec3 :=
      ⟨scatterDir.x * (blastTime * 12.0 * decel),
       scatterDir.y * (blastTime * 12.0 * decel),
       scatterDir.z * (blastTime * 12.0 * decel)⟩
    let gravity := 8.0
    let fallDelay := glslSmoothstep 0.0 0.3 blastProgress
    let fallOffset := gravity * blastTime * blastTime * fallDelay
    let spin := blastTime * (glslHash (aProgress * 111.0) - 0.5) * 4.0
    let blastOffset : Vec3 :=
      ⟨scatterOffset.x + Real.sin spin * 0.3,
       scatterOffset.y - fallOffset,
       scatterOffset.z + Real.cos spin * 0.3⟩
    let shifted : Vec3 :=
      ⟨finalPos.x + blastOffset.x, finalPos.y + blastOffset.y, finalPos.z + blastOffset.z⟩
    (vmix finalPos shifted easeBlast, 1 - glslSmoothstep 0.4 1.0 uBlast)
  else (finalPos, 1)

lemma glslSmoothstep_04_1_at_1 : glslSmoothstep 0.4 1.0 1 = 1 := by
  norm_num [glslSmoothstep, glslClamp01]

/-- Claim C9: at blast amount 0 the blast stage leaves the position
unchanged and keeps the alpha multiplier at 1; at blast amount 1 the
alpha multiplier is 0; in between (whenever the stage is active) the
alpha is `1 - smoothstep(0.4, 1.0, uBlast)`, which stays 1 up to 40%
blast progress. -/
theorem c9_blast_alpha (p : Vec3) (a : ℝ) :
    blastStage p a 0 = (p, 1) ∧
    (blastStage p a 1).2 = 0 ∧
    (∀ b : ℝ, 0.01 < b → (blastStage p a b).2 = 1 - glslSmoothstep 0.4 1.0 b) ∧
    (∀ b : ℝ, 0.01 < b → b ≤ 0.4 → (blastStage p a b).2 = 1) := by
  have hz : ∀ b : ℝ, 0.01 < b → (blastStage p a b).2 = 1 - glslSmoothstep 0.4 1.0 b := by
    intro b hb
    rw [blastStage, if_pos (by linarith)]
  refine ⟨?_, ?_, hz, ?_⟩
  · rw [blastStage, if_neg (by norm_num)]
  · rw [hz 1 (by norm_num), glslSmoothstep_04_1_at_1]
    norm_num
  · intro b hb hb4
    rw [hz b hb]
    have hss : glslSmoothstep 0.4 1.0 b = 0 := by
      unfold glslSmoothstep glslClamp01
      have harg : (b - 0.4) / (1.0 - 0.4) ≤ 0 := by
        apply div_nonpos_of_nonpos_of_nonneg <;> linarith
      rw [max_eq_right harg, min_eq_left (by norm_num : (0:ℝ) ≤ 1)]
      ring
    rw [hss]
    norm_num

/-- Witness for C9: with the blast amount at 0.2 (past the guard,
before the 40% fade start) the alpha multiplier is still 1. -/
theorem c9_blast_alpha_witness : (blastStage ⟨0, 0, 0⟩ 0 0.2).2 = 1 :=
  (c9_blast_alpha ⟨0, 0, 0⟩ 0).2.2.2 0.2 (by norm_num) (by norm_num)

/-! ## Per-frame uniform targets (src/App.tsx lines 820-854) -/

/-- The five per-frame smoothing targets of the `useFrame` handler. -/
structure Targets where
  visible : ℝ
  pinch : ℝ
  magic : ℝ
  rotation : ℝ
  blast : ℝ

/-- `THREE.MathUtils.smoothstep(x, min, max)`: 0 below `min`, 1 above
`max`, cubic Hermite in between. -/
noncomputable def threeSmoothstep (x minv maxv : ℝ) : ℝ :=
  if x ≤ minv then 0
  else if x ≥ maxv then 1
  else ((x - minv) / (maxv - minv)) * ((x - minv) / (maxv - minv)) *
    (3 - 2 * ((x - minv) / (maxv - minv)))

/-- The smoothing targets computed each frame from the shared hand
state: defaults `magic = 0`, `rotation = 0`, `blast = 0`,
`pinch = 1.0`, `visible = 0.0`, overwritten only when a hand is
detected (then `visible = 1`, `pinch` raw,
`magic = smoothstep(pinch, 0.3, 0.8)`, `rotation` raw, `blast` raw). -/
noncomputable def frameTargets (hs : HandState) : Targets :=
  if hs.detected then
    { visible := 1
      pinch := hs.pinch
      magic := threeSmoothstep hs.pinch 0.3 0.8
      rotation := hs.rotation
      blast := hs.blast }
  else
    { visible := 0
      pinch := 1.0
      magic := 0
      rotation := 0
      blast := 0 }

/-- Claim C10: when no hand is detected the targets are visibility 0,
pinch 1.0 (open), magic 0, rotation 0 and blast 0; in particular the
magic target is 0 and NOT the smoothstep of the default pinch target
(that smoothstep is 1 at pinch 1.0), so one smoothing step from any
nonnegative magic value moves toward structure A (never grows), and
visibility decays toward hidden. -/
theorem c10_undetected_targets (hs : HandState) (h : hs.detected = false) :
    frameTargets hs = ⟨0, 1.0, 0, 0, 0⟩ ∧
    threeSmoothstep 1.0 0.3 0.8 = 1 ∧
    (frameTargets hs).magic ≠ threeSmoothstep (frameTargets hs).pinch 0.3 0.8 ∧
    (∀ m : ℝ, 0 ≤ m → threeLerp m (frameTargets hs).magic 0.08 ≤ m) ∧
    (∀ v : ℝ, 0 ≤ v → threeLerp v (frameTargets hs).visible 0.1 ≤ v) := by
  have hft : frameTargets hs = ⟨0, 1.0, 0, 0, 0⟩ := by
    unfold frameTargets
    rw [h]
    simp
  have hss : threeSmoothstep 1.0 0.3 0.8 = 1 := by
    unfold threeSmoothstep
    rw [if_neg (by norm_num), if_pos (by norm_num)]
  refine ⟨hft, hss, ?_, ?_, ?_⟩
  · rw [hft]
    show (0 : ℝ) ≠ threeSmoothstep 1.0 0.3 0.8
    rw [hss]
    norm_num
  · intro m hm
    rw [hft]
    show threeLerp m 0 0.08 ≤ m
    unfold threeLerp
    linarith
  · intro v hv
    rw [hft]
    show threeLerp v 0 0.1 ≤ v
    unfold threeLerp
    linarith

/-- Witness for C10 on a concrete undetected hand state. -/
theorem c10_undetected_targets_witness :
    frameTargets ⟨false, 0.5, 0.5, 0.5, 0.5, 1.0, 0, [], 0⟩ = ⟨0, 1.0, 0, 0, 0⟩ :=
  (c10_undetected_targets ⟨false, 0.5, 0.5, 0.5, 0.5, 1.0, 0, [], 0⟩ rfl).1
